import Mathlib

/-!
Verification of the Media Session Controller in src/app/page.js.

The page is a single React component whose logic lives in seven handlers:
addLog, startCamera, stopCamera, toggleTorch, startMicrophone,
stopMicrophone and clearLogs.  We embed the component state as an explicit
record and each handler as a state-transformer parameterised by the host
media subsystem's response (a getUserMedia outcome, a capability query, an
applyConstraints outcome, or an exception raised while releasing a track).
React's setX(v) calls become record updates; setLogs uses a functional
updater in addLog, so sequential appends within one handler accumulate,
which the direct state-passing embedding reflects.  The timestamp source
(new Date().toLocaleTimeString()) is modelled by an abstract counter
`clock` rendered by `tsFmt`.  A ghost field `calls` records every request
issued to the host, so "performs no host call" is expressible.
-/

namespace MediaTester

/-- Severity tag of a log entry: the `type` argument of addLog in page.js
(the code uses the strings "info", "success", "error"). -/
inductive Sev
  | info
  | success
  | error
  deriving DecidableEq

/-- One entry of the console log: addLog stores the formatted message
together with its severity (`setLogs(prev => [...prev, { message, type }])`). -/
structure LogEntry where
  message : String
  type : Sev
  deriving DecidableEq

/-- A host media track.  `label` is track.label; `hasGetCapabilities`
models the feature test `trackRef.current.getCapabilities` (the method may
be absent); `capTorch` is the `torch` key of the capability set returned
by getCapabilities: `none` models `capabilities.torch === undefined`.
The capability object itself is always truthy, matching the source's
`capabilities && ...` test. -/
structure Track where
  label : String
  hasGetCapabilities : Bool
  capTorch : Option Bool
  deriving DecidableEq

/-- A host media stream: the list returned by getVideoTracks() /
getAudioTracks() for the constraint the stream was acquired with. -/
structure Stream where
  tracks : List Track
  deriving DecidableEq

/-- Ghost record of a request issued to the host media subsystem. -/
inductive HostCall
  | getUserMediaVideo
  | getUserMediaAudio
  | applyConstraintsTorch (value : Bool)
  deriving DecidableEq

/-- The component state: one field per useState/useRef of page.js
(the video element is rendered unconditionally, so only its srcObject is
modelled, as `videoSrc`), plus the ghost clock and host-call trace. -/
structure St where
  cameraActive : Bool
  cameraError : Option String
  torchEnabled : Bool
  torchSupported : Bool
  videoSrc : Option Stream
  streamRef : Option Stream
  trackRef : Option Track
  micActive : Bool
  micError : Option String
  micRecording : Bool
  micStreamRef : Option Stream
  micTrackRef : Option Track
  logs : List LogEntry
  clock : Nat
  calls : List HostCall
  deriving DecidableEq

/-- Initial state: useState(false) / useState(null) / useRef(null) / useState([]). -/
def initSt : St :=
  { cameraActive := false, cameraError := none, torchEnabled := false,
    torchSupported := false, videoSrc := none, streamRef := none, trackRef := none,
    micActive := false, micError := none, micRecording := false,
    micStreamRef := none, micTrackRef := none, logs := [], clock := 0, calls := [] }

/-- The log-line format of addLog: a bracketed timestamp followed by the
message.  The abstract clock stands in for toLocaleTimeString(). -/
def tsFmt (clock : Nat) (msg : String) : String :=
  "[" ++ toString clock ++ "] " ++ msg

/-- addLog from page.js: appends one formatted entry (functional setLogs
updater) and consumes one tick of the timestamp source. -/
def addLog (s : St) (msg : String) (t : Sev) : St :=
  { s with logs := s.logs ++ [⟨tsFmt s.clock msg, t⟩], clock := s.clock + 1 }

/-- Outcome of an awaited getUserMedia request.  On success the host
returns a stream; a granted request for a video/audio constraint resolves
with at least one matching track (WebRTC guarantee), so the success case
carries a nonempty track list.  On failure the promise rejects and the
catch block sees `error.message || error.name`, carried here as `msg`. -/
inductive StartEvt
  | success (t : Track) (rest : List Track)
  | failure (msg : String)

/-- Behaviour of the host during a stop call: for each track,
`stopThrows tr = some m` means track.stop() raises an exception whose
message is `m`; `none` means the release returns normally. -/
structure StopEvt where
  stopThrows : Track → Option String

/-- Outcome of an awaited track.applyConstraints request. -/
inductive ToggleEvt
  | success
  | failure (msg : String)

/-- startCamera from page.js (lines 34-71). -/
def startCamera (s : St) (e : StartEvt) : St :=
  let s1 := addLog s "Camera: Requesting permission..." Sev.info
  let s2 := { s1 with cameraError := none }
  match e with
  | StartEvt.failure msg =>
    let s3 := { s2 with calls := s2.calls ++ [HostCall.getUserMediaVideo] }
    let errorMsg := "Camera: Permission denied or error occurred - " ++ msg
    let s4 := addLog s3 errorMsg Sev.error
    { s4 with cameraError := some errorMsg, cameraActive := false }
  | StartEvt.success t rest =>
    let stream : Stream := ⟨t :: rest⟩
    let s3 := { s2 with calls := s2.calls ++ [HostCall.getUserMediaVideo] }
    let s4 := addLog s3 "Camera: Permission granted, stream obtained" Sev.success
    let s5 := { s4 with streamRef := some stream, trackRef := stream.tracks.head? }
    let s6 :=
      if t.hasGetCapabilities then
        if t.capTorch.isSome then
          addLog { s5 with torchSupported := true } "Camera: Torch is supported" Sev.success
        else
          addLog s5 "Camera: Torch is not supported on this device" Sev.info
      else s5
    let s7 := addLog { s6 with videoSrc := some stream }
      "Camera: Video element source set" Sev.success
    { s7 with cameraActive := true }

/-- The per-track log line of stopCamera's forEach. -/
def camTrackMsg (t : Track) : String :=
  "Camera: Video track stopped (" ++ t.label ++ ")"

/-- The per-track log line of stopMicrophone's forEach. -/
def micTrackMsg (t : Track) : String :=
  "Microphone: Audio track stopped (" ++ t.label ++ ")"

/-- The forEach loop over a stream's tracks inside a stop handler: each
track is stopped in order and logged; a throwing track.stop() aborts the
loop, carrying out the state reached so far together with the message. -/
def stopTrackList (fmt : Track → String) (thr : Track → Option String) :
    St → List Track → Except (St × String) St
  | s, [] => Except.ok s
  | s, t :: rest =>
    match thr t with
    | some m => Except.error (s, m)
    | none => stopTrackList fmt thr (addLog s (fmt t) Sev.success) rest

/-- Lines 94-106 of stopCamera: clear the video element source, reset the
torch flags, clear the active flag and the error, and log the release. -/
def stopCameraFinish (s : St) : St :=
  let s1 := addLog { s with videoSrc := none }
    "Camera: Video element source cleared" Sev.success
  let s2 := { s1 with torchEnabled := false, torchSupported := false,
                      cameraActive := false, cameraError := none }
  addLog s2 "Camera: Fully released" Sev.success

/-- The try block of stopCamera (lines 75-106): an `Except.error` result
is an exception escaping the try block, carrying the state reached. -/
def stopCameraTry (s : St) (e : StopEvt) : Except (St × String) St :=
  let s1 := addLog s "Camera: Stopping camera..." Sev.info
  let streamPart : Except (St × String) St :=
    match s1.streamRef with
    | some st =>
      match stopTrackList camTrackMsg e.stopThrows s1 st.tracks with
      | Except.error em => Except.error em
      | Except.ok s2 => Except.ok { s2 with streamRef := none }
    | none => Except.ok s1
  match streamPart with
  | Except.error em => Except.error em
  | Except.ok s2 =>
    match s2.trackRef with
    | some t =>
      match e.stopThrows t with
      | some m => Except.error (s2, m)
      | none =>
        Except.ok (stopCameraFinish
          { addLog s2 "Camera: Track reference stopped" Sev.success with trackRef := none })
    | none => Except.ok (stopCameraFinish s2)

/-- stopCamera as a possibly-throwing function: the try block wrapped in
its catch (lines 107-110), which only logs.  `Except.error` would mean an
exception escaping to the caller. -/
def stopCameraExc (s : St) (e : StopEvt) : Except (St × String) St :=
  match stopCameraTry s e with
  | Except.ok s2 => Except.ok s2
  | Except.error (sp, m) =>
    Except.ok (addLog sp ("Camera: Error stopping - " ++ m) Sev.error)

/-- stopCamera from page.js (lines 74-111).  The error branch is
unreachable (the catch swallows every exception); it returns the carried
state so the function is total. -/
def stopCamera (s : St) (e : StopEvt) : St :=
  match stopCameraExc s e with
  | Except.ok s2 => s2
  | Except.error (sp, _) => sp

/-- toggleTorch from page.js (lines 114-132). -/
def toggleTorch (s : St) (e : ToggleEvt) : St :=
  if s.trackRef.isNone || !s.torchSupported then
    addLog s "Camera: Torch not available" Sev.error
  else
    let newTorchState := !s.torchEnabled
    let s1 := { s with calls := s.calls ++ [HostCall.applyConstraintsTorch newTorchState] }
    match e with
    | ToggleEvt.success =>
      let s2 := { s1 with torchEnabled := newTorchState }
      addLog s2 ("Camera: Torch " ++ (if newTorchState then "enabled" else "disabled"))
        Sev.success
    | ToggleEvt.failure msg =>
      addLog s1 ("Camera: Torch toggle error - " ++ msg) Sev.error

/-- startMicrophone from page.js (lines 135-168). -/
def startMicrophone (s : St) (e : StartEvt) : St :=
  let s1 := addLog s "Microphone: Requesting permission..." Sev.info
  let s2 := { s1 with micError := none }
  if s2.cameraActive || s2.streamRef.isSome then
    let s3 := addLog s2
      "Microphone: WARNING - Camera is still active. Ensure camera is fully stopped before requesting microphone."
      Sev.error
    { s3 with micError := some "Camera must be stopped first" }
  else
    let s3 := addLog s2
      "Microphone: Camera is not active - proceeding with permission request" Sev.success
    match e with
    | StartEvt.failure msg =>
      let s4 := { s3 with calls := s3.calls ++ [HostCall.getUserMediaAudio] }
      let errorMsg := "Microphone: Permission denied or error - " ++ msg
      let s5 := addLog s4 errorMsg Sev.error
      { s5 with micError := some errorMsg, micActive := false, micRecording := false }
    | StartEvt.success t rest =>
      let stream : Stream := ⟨t :: rest⟩
      let s4 := { s3 with calls := s3.calls ++ [HostCall.getUserMediaAudio] }
      let s5 := addLog s4 "Microphone: Permission granted, stream obtained" Sev.success
      let s6 := { s5 with micStreamRef := some stream, micTrackRef := stream.tracks.head? }
      let s7 := { s6 with micActive := true, micRecording := true }
      addLog s7 ("Microphone: Recording started (" ++ t.label ++ ")") Sev.success

/-- Lines 191-194 of stopMicrophone: clear recording, active and error,
and log the release. -/
def stopMicFinish (s : St) : St :=
  let s1 := { s with micRecording := false, micActive := false, micError := none }
  addLog s1 "Microphone: Fully released" Sev.success

/-- The try block of stopMicrophone (lines 172-194). -/
def stopMicrophoneTry (s : St) (e : StopEvt) : Except (St × String) St :=
  let s1 := addLog s "Microphone: Stopping recording..." Sev.info
  let streamPart : Except (St × String) St :=
    match s1.micStreamRef with
    | some st =>
      match stopTrackList micTrackMsg e.stopThrows s1 st.tracks with
      | Except.error em => Except.error em
      | Except.ok s2 => Except.ok { s2 with micStreamRef := none }
    | none => Except.ok s1
  match streamPart with
  | Except.error em => Except.error em
  | Except.ok s2 =>
    match s2.micTrackRef with
    | some t =>
      match e.stopThrows t with
      | some m => Except.error (s2, m)
      | none =>
        Except.ok (stopMicFinish
          { addLog s2 "Microphone: Track reference stopped" Sev.success with micTrackRef := none })
    | none => Except.ok (stopMicFinish s2)

/-- stopMicrophone wrapped in its catch (lines 195-198). -/
def stopMicrophoneExc (s : St) (e : StopEvt) : Except (St × String) St :=
  match stopMicrophoneTry s e with
  | Except.ok s2 => Except.ok s2
  | Except.error (sp, m) =>
    Except.ok (addLog sp ("Microphone: Error stopping - " ++ m) Sev.error)

/-- stopMicrophone from page.js (lines 171-199). -/
def stopMicrophone (s : St) (e : StopEvt) : St :=
  match stopMicrophoneExc s e with
  | Except.ok s2 => s2
  | Except.error (sp, _) => sp

/-- clearLogs from page.js (lines 224-227): setLogs([]) followed by
addLog (a functional updater, so it appends to the emptied list). -/
def clearLogs (s : St) : St :=
  addLog { s with logs := [] } "Logs cleared" Sev.info

/-- A user action together with the host's response to it. -/
inductive Evt
  | startCam (e : StartEvt)
  | stopCam (e : StopEvt)
  | toggle (e : ToggleEvt)
  | startMic (e : StartEvt)
  | stopMic (e : StopEvt)
  | clear

/-- The handler each action invokes. -/
def stepEvt (s : St) : Evt → St
  | Evt.startCam e => startCamera s e
  | Evt.stopCam e => stopCamera s e
  | Evt.toggle e => toggleTorch s e
  | Evt.startMic e => startMicrophone s e
  | Evt.stopMic e => stopMicrophone s e
  | Evt.clear => clearLogs s

/-- Whether the button firing the action is enabled: the negation of each
button's `disabled` expression in the JSX (Camera ON is disabled while
cameraActive; Camera OFF while not; Flash while not active or torch
unsupported; Microphone ON while micRecording or cameraActive;
Microphone OFF while not micRecording; Clear is always enabled). -/
def enabledFor (s : St) : Evt → Bool
  | Evt.startCam _ => !s.cameraActive
  | Evt.stopCam _ => s.cameraActive
  | Evt.toggle _ => s.cameraActive && s.torchSupported
  | Evt.startMic _ => !(s.micRecording || s.cameraActive)
  | Evt.stopMic _ => s.micRecording
  | Evt.clear => true

/-- States the rendered page can reach: the initial state followed by any
sequence of clicks on enabled buttons, with arbitrary host responses. -/
inductive Reach : St → Prop
  | base : Reach initSt
  | next {s : St} {e : Evt} : Reach s → enabledFor s e = true → Reach (stepEvt s e)

/-- Erase the log and the clock: two states with the same erasure agree on
every field except the log text and timestamps. -/
def erase (s : St) : St := { s with logs := [], clock := 0 }

/-- A stop event in which no track release throws. -/
def noThrowEvt : StopEvt := ⟨fun _ => none⟩

/-- Number of error-severity entries in a log fragment. -/
def errCount (l : List LogEntry) : Nat :=
  (l.filter (fun le => decide (le.type = Sev.error))).length

/-- One call in a sequence of start/stop calls on the video session,
together with the host's response to it. -/
inductive CamOp
  | start (e : StartEvt)
  | stop (e : StopEvt)

/-- Execute one call of a start/stop sequence. -/
def camOpApply (s : St) : CamOp → St
  | CamOp.start e => startCamera s e
  | CamOp.stop e => stopCamera s e

/-- Execute a finite sequence of start/stop calls on the video session. -/
def camRun (s : St) : List CamOp → St
  | [] => s
  | op :: rest => camRun (camOpApply s op) rest

/-- The value of the active flag a single call leaves behind: true for a
successful start, false for a failed start or a stop. -/
def camOpActive : CamOp → Bool
  | CamOp.start (StartEvt.success _ _) => true
  | CamOp.start (StartEvt.failure _) => false
  | CamOp.stop _ => false

/-- The most recent start call succeeded and no stop call occurred after
it: scanning the sequence from its end, the last call is a successful
start; false when the sequence is empty. -/
def lastStartOkNoStop (ops : List CamOp) : Bool :=
  match ops.reverse with
  | [] => false
  | op :: _ => camOpActive op

/-- Sample track whose capability set carries the torch key. -/
def torchTrack : Track := ⟨"cam0", true, some false⟩

/-- Sample track whose capability set lacks the torch key. -/
def plainTrack : Track := ⟨"cam1", false, none⟩

/-- State after a successful camera start with a torch-capable track. -/
def sCamTorch : St := stepEvt initSt (Evt.startCam (StartEvt.success torchTrack []))

/-- State after additionally toggling the torch on successfully. -/
def sCamTorchOn : St := stepEvt sCamTorch (Evt.toggle ToggleEvt.success)

/-- Equality of every field except the log and the clock. -/
def EqCore (a b : St) : Prop :=
  a.cameraActive = b.cameraActive ∧ a.cameraError = b.cameraError ∧
  a.torchEnabled = b.torchEnabled ∧ a.torchSupported = b.torchSupported ∧
  a.videoSrc = b.videoSrc ∧ a.streamRef = b.streamRef ∧ a.trackRef = b.trackRef ∧
  a.micActive = b.micActive ∧ a.micError = b.micError ∧ a.micRecording = b.micRecording ∧
  a.micStreamRef = b.micStreamRef ∧ a.micTrackRef = b.micTrackRef ∧
  a.calls = b.calls

theorem erase_addLog (s : St) (m : String) (t : Sev) :
    erase (addLog s m t) = erase s := rfl

theorem eqCore_of_erase {a b : St} (h : erase a = erase b) : EqCore a b := by
  refine ⟨?_, ?_, ?_, ?_, ?_, ?_, ?_, ?_, ?_, ?_, ?_, ?_, ?_⟩
  · exact congrArg (fun x => x.cameraActive) h
  · exact congrArg (fun x => x.cameraError) h
  · exact congrArg (fun x => x.torchEnabled) h
  · exact congrArg (fun x => x.torchSupported) h
  · exact congrArg (fun x => x.videoSrc) h
  · exact congrArg (fun x => x.streamRef) h
  · exact congrArg (fun x => x.trackRef) h
  · exact congrArg (fun x => x.micActive) h
  · exact congrArg (fun x => x.micError) h
  · exact congrArg (fun x => x.micRecording) h
  · exact congrArg (fun x => x.micStreamRef) h
  · exact congrArg (fun x => x.micTrackRef) h
  · exact congrArg (fun x => x.calls) h

theorem eqCore_refl (a : St) : EqCore a a :=
  ⟨rfl, rfl, rfl, rfl, rfl, rfl, rfl, rfl, rfl, rfl, rfl, rfl, rfl⟩

theorem eqCore_trans {a b c : St} (h1 : EqCore a b) (h2 : EqCore b c) : EqCore a c := by
  obtain ⟨a1, a2, a3, a4, a5, a6, a7, a8, a9, a10, a11, a12, a13⟩ := h1
  obtain ⟨b1, b2, b3, b4, b5, b6, b7, b8, b9, b10, b11, b12, b13⟩ := h2
  exact ⟨a1.trans b1, a2.trans b2, a3.trans b3, a4.trans b4, a5.trans b5,
    a6.trans b6, a7.trans b7, a8.trans b8, a9.trans b9, a10.trans b10,
    a11.trans b11, a12.trans b12, a13.trans b13⟩

@[simp] theorem addLog_cameraActive (s : St) (m : String) (t : Sev) :
    (addLog s m t).cameraActive = s.cameraActive := rfl

@[simp] theorem addLog_cameraError (s : St) (m : String) (t : Sev) :
    (addLog s m t).cameraError = s.cameraError := rfl

@[simp] theorem addLog_torchEnabled (s : St) (m : String) (t : Sev) :
    (addLog s m t).torchEnabled = s.torchEnabled := rfl

@[simp] theorem addLog_torchSupported (s : St) (m : String) (t : Sev) :
    (addLog s m t).torchSupported = s.torchSupported := rfl

@[simp] theorem addLog_videoSrc (s : St) (m : String) (t : Sev) :
    (addLog s m t).videoSrc = s.videoSrc := rfl

@[simp] theorem addLog_streamRef (s : St) (m : String) (t : Sev) :
    (addLog s m t).streamRef = s.streamRef := rfl

@[simp] theorem addLog_trackRef (s : St) (m : String) (t : Sev) :
    (addLog s m t).trackRef = s.trackRef := rfl

@[simp] theorem addLog_micActive (s : St) (m : String) (t : Sev) :
    (addLog s m t).micActive = s.micActive := rfl

@[simp] theorem addLog_micError (s : St) (m : String) (t : Sev) :
    (addLog s m t).micError = s.micError := rfl

@[simp] theorem addLog_micRecording (s : St) (m : String) (t : Sev) :
    (addLog s m t).micRecording = s.micRecording := rfl

@[simp] theorem addLog_micStreamRef (s : St) (m : String) (t : Sev) :
    (addLog s m t).micStreamRef = s.micStreamRef := rfl

@[simp] theorem addLog_micTrackRef (s : St) (m : String) (t : Sev) :
    (addLog s m t).micTrackRef = s.micTrackRef := rfl

@[simp] theorem addLog_calls (s : St) (m : String) (t : Sev) :
    (addLog s m t).calls = s.calls := rfl

theorem addLog_logs (s : St) (m : String) (t : Sev) :
    (addLog s m t).logs = s.logs ++ [⟨tsFmt s.clock m, t⟩] := rfl

theorem addLog_clock (s : St) (m : String) (t : Sev) :
    (addLog s m t).clock = s.clock + 1 := rfl

theorem startCamera_fail_eq (s : St) (m : String) :
    startCamera s (StartEvt.failure m) =
      { s with cameraError := some ("Camera: Permission denied or error occurred - " ++ m),
               cameraActive := false,
               calls := s.calls ++ [HostCall.getUserMediaVideo],
               logs := s.logs ++
                 [⟨tsFmt s.clock "Camera: Requesting permission...", Sev.info⟩,
                  ⟨tsFmt (s.clock + 1) ("Camera: Permission denied or error occurred - " ++ m),
                   Sev.error⟩],
               clock := s.clock + 2 } := by
  simp [startCamera, addLog]

theorem startCamera_success_spec (s : St) (t : Track) (rest : List Track) :
    (startCamera s (StartEvt.success t rest)).cameraActive = true ∧
    (startCamera s (StartEvt.success t rest)).cameraError = none ∧
    (startCamera s (StartEvt.success t rest)).streamRef = some ⟨t :: rest⟩ ∧
    (startCamera s (StartEvt.success t rest)).trackRef = some t ∧
    (startCamera s (StartEvt.success t rest)).videoSrc = some ⟨t :: rest⟩ ∧
    (startCamera s (StartEvt.success t rest)).torchEnabled = s.torchEnabled ∧
    (startCamera s (StartEvt.success t rest)).torchSupported
      = (t.hasGetCapabilities && t.capTorch.isSome || s.torchSupported) ∧
    (startCamera s (StartEvt.success t rest)).micActive = s.micActive ∧
    (startCamera s (StartEvt.success t rest)).micError = s.micError ∧
    (startCamera s (StartEvt.success t rest)).micRecording = s.micRecording ∧
    (startCamera s (StartEvt.success t rest)).micStreamRef = s.micStreamRef ∧
    (startCamera s (StartEvt.success t rest)).micTrackRef = s.micTrackRef ∧
    (startCamera s (StartEvt.success t rest)).calls
      = s.calls ++ [HostCall.getUserMediaVideo] := by
  cases hgc : t.hasGetCapabilities <;> cases hct : t.capTorch <;>
    simp [startCamera, addLog, hgc, hct]

theorem startMicrophone_refuse_eq (s : St) (e : StartEvt)
    (h : s.cameraActive = true ∨ s.streamRef.isSome = true) :
    startMicrophone s e =
      { s with micError := some "Camera must be stopped first",
               logs := s.logs ++
                 [⟨tsFmt s.clock "Microphone: Requesting permission...", Sev.info⟩,
                  ⟨tsFmt (s.clock + 1)
                     "Microphone: WARNING - Camera is still active. Ensure camera is fully stopped before requesting microphone.",
                   Sev.error⟩],
               clock := s.clock + 2 } := by
  have hcond : (s.cameraActive || s.streamRef.isSome) = true := by
    rcases h with h | h <;> simp [h]
  simp [startMicrophone, addLog, hcond]

theorem startMicrophone_fail_spec (s : St) (m : String)
    (hca : s.cameraActive = false) (hsr : s.streamRef = none) :
    (startMicrophone s (StartEvt.failure m)).micActive = false ∧
    (startMicrophone s (StartEvt.failure m)).micRecording = false ∧
    (startMicrophone s (StartEvt.failure m)).micError
      = some ("Microphone: Permission denied or error - " ++ m) ∧
    (startMicrophone s (StartEvt.failure m)).micStreamRef = s.micStreamRef ∧
    (startMicrophone s (StartEvt.failure m)).micTrackRef = s.micTrackRef ∧
    (startMicrophone s (StartEvt.failure m)).cameraActive = s.cameraActive ∧
    (startMicrophone s (StartEvt.failure m)).cameraError = s.cameraError ∧
    (startMicrophone s (StartEvt.failure m)).torchEnabled = s.torchEnabled ∧
    (startMicrophone s (StartEvt.failure m)).torchSupported = s.torchSupported ∧
    (startMicrophone s (StartEvt.failure m)).videoSrc = s.videoSrc ∧
    (startMicrophone s (StartEvt.failure m)).streamRef = s.streamRef ∧
    (startMicrophone s (StartEvt.failure m)).trackRef = s.trackRef ∧
    (startMicrophone s (StartEvt.failure m)).calls
      = s.calls ++ [HostCall.getUserMediaAudio] := by
  simp [startMicrophone, addLog, hca, hsr]

theorem startMicrophone_success_spec (s : St) (t : Track) (rest : List Track)
    (hca : s.cameraActive = false) (hsr : s.streamRef = none) :
    (startMicrophone s (StartEvt.success t rest)).micActive = true ∧
    (startMicrophone s (StartEvt.success t rest)).micRecording = true ∧
    (startMicrophone s (StartEvt.success t rest)).micError = none ∧
    (startMicrophone s (StartEvt.success t rest)).micStreamRef = some ⟨t :: rest⟩ ∧
    (startMicrophone s (StartEvt.success t rest)).micTrackRef = some t ∧
    (startMicrophone s (StartEvt.success t rest)).cameraActive = s.cameraActive ∧
    (startMicrophone s (StartEvt.success t rest)).cameraError = s.cameraError ∧
    (startMicrophone s (StartEvt.success t rest)).torchEnabled = s.torchEnabled ∧
    (startMicrophone s (StartEvt.success t rest)).torchSupported = s.torchSupported ∧
    (startMicrophone s (StartEvt.success t rest)).videoSrc = s.videoSrc ∧
    (startMicrophone s (StartEvt.success t rest)).streamRef = s.streamRef ∧
    (startMicrophone s (StartEvt.success t rest)).trackRef = s.trackRef ∧
    (startMicrophone s (StartEvt.success t rest)).calls
      = s.calls ++ [HostCall.getUserMediaAudio] := by
  simp [startMicrophone, addLog, hca, hsr]

theorem toggleTorch_unavailable_eq (s : St) (e : ToggleEvt)
    (h : s.trackRef = none ∨ s.torchSupported = false) :
    toggleTorch s e = addLog s "Camera: Torch not available" Sev.error := by
  have hcond : (s.trackRef.isNone || !s.torchSupported) = true := by
    rcases h with h | h <;> simp [h]
  simp [toggleTorch, hcond]

theorem toggleTorch_success_eq (s : St) (t : Track)
    (ht : s.trackRef = some t) (hsup : s.torchSupported = true) :
    toggleTorch s ToggleEvt.success =
      { s with torchEnabled := !s.torchEnabled,
               calls := s.calls ++ [HostCall.applyConstraintsTorch (!s.torchEnabled)],
               logs := s.logs ++
                 [⟨tsFmt s.clock ("Camera: Torch "
                     ++ (if !s.torchEnabled then "enabled" else "disabled")), Sev.success⟩],
               clock := s.clock + 1 } := by
  simp [toggleTorch, addLog, ht, hsup]

theorem toggleTorch_failure_eq (s : St) (t : Track) (m : String)
    (ht : s.trackRef = some t) (hsup : s.torchSupported = true) :
    toggleTorch s (ToggleEvt.failure m) =
      { s with calls := s.calls ++ [HostCall.applyConstraintsTorch (!s.torchEnabled)],
               logs := s.logs ++
                 [⟨tsFmt s.clock ("Camera: Torch toggle error - " ++ m), Sev.error⟩],
               clock := s.clock + 1 } := by
  simp [toggleTorch, addLog, ht, hsup]

theorem clearLogs_eq (s : St) :
    clearLogs s = { s with logs := [⟨tsFmt s.clock "Logs cleared", Sev.info⟩],
                           clock := s.clock + 1 } := by
  simp [clearLogs, addLog]

theorem stopTrackList_ok_erase (fmt : Track → String) (thr : Track → Option String) :
    ∀ (l : List Track) (s s2 : St),
      stopTrackList fmt thr s l = Except.ok s2 → erase s2 = erase s := by
  intro l
  induction l with
  | nil => intro s s2 h; simp [stopTrackList] at h; simp [← h]
  | cons t rest ih =>
    intro s s2 h
    cases hthr : thr t with
    | some m => simp [stopTrackList, hthr] at h
    | none =>
      have h2 : stopTrackList fmt thr (addLog s (fmt t) Sev.success) rest = Except.ok s2 := by
        simpa [stopTrackList, hthr] using h
      exact (ih _ _ h2).trans (erase_addLog s (fmt t) Sev.success)

theorem stopTrackList_err_erase (fmt : Track → String) (thr : Track → Option String) :
    ∀ (l : List Track) (s sp : St) (m : String),
      stopTrackList fmt thr s l = Except.error (sp, m) → erase sp = erase s := by
  intro l
  induction l with
  | nil => intro s sp m h; simp [stopTrackList] at h
  | cons t rest ih =>
    intro s sp m h
    cases hthr : thr t with
    | some m2 =>
      simp [stopTrackList, hthr] at h
      simp [← h.1]
    | none =>
      have h2 : stopTrackList fmt thr (addLog s (fmt t) Sev.success) rest
          = Except.error (sp, m) := by
        simpa [stopTrackList, hthr] using h
      exact (ih _ _ _ h2).trans (erase_addLog s (fmt t) Sev.success)

theorem stopTrackList_ok_none (fmt : Track → String) (thr : Track → Option String) :
    ∀ (l : List Track) (s s2 : St),
      stopTrackList fmt thr s l = Except.ok s2 → ∀ t ∈ l, thr t = none := by
  intro l
  induction l with
  | nil => intro s s2 _ t ht; simp at ht
  | cons t0 rest ih =>
    intro s s2 h t ht
    cases hthr : thr t0 with
    | some m => simp [stopTrackList, hthr] at h
    | none =>
      have h2 : stopTrackList fmt thr (addLog s (fmt t0) Sev.success) rest = Except.ok s2 := by
        simpa [stopTrackList, hthr] using h
      rcases List.mem_cons.mp ht with rfl | hmem
      · exact hthr
      · exact ih _ _ h2 t hmem

theorem stopTrackList_none_ok (fmt : Track → String) (thr : Track → Option String) :
    ∀ (l : List Track) (s : St), (∀ t ∈ l, thr t = none) →
      ∃ s2, stopTrackList fmt thr s l = Except.ok s2 := by
  intro l
  induction l with
  | nil => intro s _; exact ⟨s, rfl⟩
  | cons t rest ih =>
    intro s h
    obtain ⟨s2, h2⟩ := ih (addLog s (fmt t) Sev.success) (fun t2 ht2 => h t2 (List.mem_cons_of_mem _ ht2))
    exact ⟨s2, by simp [stopTrackList, h t (List.mem_cons_self t rest), h2]⟩

theorem stopCamera_refsNone (s : St) (e : StopEvt)
    (h1 : s.streamRef = none) (h2 : s.trackRef = none) :
    stopCamera s e =
      { s with videoSrc := none, torchEnabled := false, torchSupported := false,
               cameraActive := false, cameraError := none,
               logs := s.logs ++
                 [⟨tsFmt s.clock "Camera: Stopping camera...", Sev.info⟩,
                  ⟨tsFmt (s.clock + 1) "Camera: Video element source cleared", Sev.success⟩,
                  ⟨tsFmt (s.clock + 2) "Camera: Fully released", Sev.success⟩],
               clock := s.clock + 3 } := by
  simp [stopCamera, stopCameraExc, stopCameraTry, stopCameraFinish, addLog, h1, h2]

theorem stopCamera_noThrow_spec (s : St) (e : StopEvt) (h : ∀ t, e.stopThrows t = none) :
    (stopCamera s e).cameraActive = false ∧
    (stopCamera s e).cameraError = none ∧
    (stopCamera s e).streamRef = none ∧
    (stopCamera s e).trackRef = none ∧
    (stopCamera s e).torchEnabled = false ∧
    (stopCamera s e).torchSupported = false ∧
    (stopCamera s e).videoSrc = none ∧
    (stopCamera s e).micActive = s.micActive ∧
    (stopCamera s e).micError = s.micError ∧
    (stopCamera s e).micRecording = s.micRecording ∧
    (stopCamera s e).micStreamRef = s.micStreamRef ∧
    (stopCamera s e).micTrackRef = s.micTrackRef ∧
    (stopCamera s e).calls = s.calls := by
  cases hs : s.streamRef with
  | none =>
    cases ht : s.trackRef with
    | none => simp [stopCamera, stopCameraExc, stopCameraTry, stopCameraFinish, addLog, hs, ht]
    | some t =>
      simp [stopCamera, stopCameraExc, stopCameraTry, stopCameraFinish, addLog, hs, ht, h t]
  | some st =>
    obtain ⟨s2, hok⟩ := stopTrackList_none_ok camTrackMsg e.stopThrows st.tracks
      (addLog s "Camera: Stopping camera..." Sev.info) (fun t _ => h t)
    obtain ⟨c1, c2, c3, c4, c5, c6, c7, c8, c9, c10, c11, c12, c13⟩ :=
      eqCore_of_erase (stopTrackList_ok_erase camTrackMsg e.stopThrows st.tracks _ _ hok)
    simp only [addLog_cameraActive, addLog_cameraError, addLog_torchEnabled,
      addLog_torchSupported, addLog_videoSrc, addLog_streamRef, addLog_trackRef,
      addLog_micActive, addLog_micError, addLog_micRecording, addLog_micStreamRef,
      addLog_micTrackRef, addLog_calls] at c1 c2 c3 c4 c5 c6 c7 c8 c9 c10 c11 c12 c13
    cases ht : s.trackRef with
    | none =>
      simp only [stopCamera, stopCameraExc, stopCameraTry, stopCameraFinish,
        addLog_streamRef, addLog_trackRef, hs, hok, c7, ht]
      simp [c8, c9, c10, c11, c12, c13]
    | some t =>
      simp only [stopCamera, stopCameraExc, stopCameraTry, stopCameraFinish,
        addLog_streamRef, addLog_trackRef, hs, hok, c7, ht, h t]
      simp [c8, c9, c10, c11, c12, c13]

theorem stopCamera_cases (s : St) (e : StopEvt) (st : Stream)
    (hs : s.streamRef = some st) (ht : s.trackRef = st.tracks.head?) (hne : st.tracks ≠ []) :
    EqCore (stopCamera s e) s ∨
    ((stopCamera s e).cameraActive = false ∧
     (stopCamera s e).cameraError = none ∧
     (stopCamera s e).streamRef = none ∧
     (stopCamera s e).trackRef = none ∧
     (stopCamera s e).torchEnabled = false ∧
     (stopCamera s e).torchSupported = false ∧
     (stopCamera s e).micActive = s.micActive ∧
     (stopCamera s e).micError = s.micError ∧
     (stopCamera s e).micRecording = s.micRecording ∧
     (stopCamera s e).micStreamRef = s.micStreamRef ∧
     (stopCamera s e).micTrackRef = s.micTrackRef ∧
     (stopCamera s e).calls = s.calls) := by
  cases hres : stopTrackList camTrackMsg e.stopThrows
      (addLog s "Camera: Stopping camera..." Sev.info) st.tracks with
  | error em =>
    left
    obtain ⟨sp, m⟩ := em
    have herase : erase sp = erase s :=
      (stopTrackList_err_erase camTrackMsg e.stopThrows st.tracks _ _ _ hres).trans
        (erase_addLog s "Camera: Stopping camera..." Sev.info)
    have hstep : stopCamera s e = addLog sp ("Camera: Error stopping - " ++ m) Sev.error := by
      simp only [stopCamera, stopCameraExc, stopCameraTry, addLog_streamRef, hs, hres]
    rw [hstep]
    exact eqCore_of_erase ((erase_addLog sp _ _).trans herase)
  | ok s2 =>
    right
    have hnone := stopTrackList_ok_none camTrackMsg e.stopThrows st.tracks _ _ hres
    obtain ⟨c1, c2, c3, c4, c5, c6, c7, c8, c9, c10, c11, c12, c13⟩ :=
      eqCore_of_erase (stopTrackList_ok_erase camTrackMsg e.stopThrows st.tracks _ _ hres)
    simp only [addLog_cameraActive, addLog_cameraError, addLog_torchEnabled,
      addLog_torchSupported, addLog_videoSrc, addLog_streamRef, addLog_trackRef,
      addLog_micActive, addLog_micError, addLog_micRecording, addLog_micStreamRef,
      addLog_micTrackRef, addLog_calls] at c1 c2 c3 c4 c5 c6 c7 c8 c9 c10 c11 c12 c13
    cases htr : st.tracks with
    | nil => exact absurd htr hne
    | cons t0 rest =>
      have hthr0 : e.stopThrows t0 = none := hnone t0 (htr ▸ List.mem_cons_self t0 rest)
      have ht0 : s.trackRef = some t0 := by rw [ht, htr]; rfl
      simp only [stopCamera, stopCameraExc, stopCameraTry, stopCameraFinish,
        addLog_streamRef, addLog_trackRef, hs, hres, c7, ht0, hthr0]
      simp [c8, c9, c10, c11, c12, c13]

theorem stopMicrophone_refsNone (s : St) (e : StopEvt)
    (h1 : s.micStreamRef = none) (h2 : s.micTrackRef = none) :
    stopMicrophone s e =
      { s with micRecording := false, micActive := false, micError := none,
               logs := s.logs ++
                 [⟨tsFmt s.clock "Microphone: Stopping recording...", Sev.info⟩,
                  ⟨tsFmt (s.clock + 1) "Microphone: Fully released", Sev.success⟩],
               clock := s.clock + 2 } := by
  simp [stopMicrophone, stopMicrophoneExc, stopMicrophoneTry, stopMicFinish, addLog, h1, h2]

theorem stopMicrophone_noThrow_spec (s : St) (e : StopEvt)
    (h : ∀ t, e.stopThrows t = none) :
    (stopMicrophone s e).micActive = false ∧
    (stopMicrophone s e).micRecording = false ∧
    (stopMicrophone s e).micError = none ∧
    (stopMicrophone s e).micStreamRef = none ∧
    (stopMicrophone s e).micTrackRef = none ∧
    (stopMicrophone s e).cameraActive = s.cameraActive ∧
    (stopMicrophone s e).cameraError = s.cameraError ∧
    (stopMicrophone s e).torchEnabled = s.torchEnabled ∧
    (stopMicrophone s e).torchSupported = s.torchSupported ∧
    (stopMicrophone s e).videoSrc = s.videoSrc ∧
    (stopMicrophone s e).streamRef = s.streamRef ∧
    (stopMicrophone s e).trackRef = s.trackRef ∧
    (stopMicrophone s e).calls = s.calls := by
  cases hs : s.micStreamRef with
  | none =>
    cases ht : s.micTrackRef with
    | none =>
      simp [stopMicrophone, stopMicrophoneExc, stopMicrophoneTry, stopMicFinish, addLog, hs, ht]
    | some t =>
      simp [stopMicrophone, stopMicrophoneExc, stopMicrophoneTry, stopMicFinish, addLog,
        hs, ht, h t]
  | some st =>
    obtain ⟨s2, hok⟩ := stopTrackList_none_ok micTrackMsg e.stopThrows st.tracks
      (addLog s "Microphone: Stopping recording..." Sev.info) (fun t _ => h t)
    obtain ⟨c1, c2, c3, c4, c5, c6, c7, c8, c9, c10, c11, c12, c13⟩ :=
      eqCore_of_erase (stopTrackList_ok_erase micTrackMsg e.stopThrows st.tracks _ _ hok)
    simp only [addLog_cameraActive, addLog_cameraError, addLog_torchEnabled,
      addLog_torchSupported, addLog_videoSrc, addLog_streamRef, addLog_trackRef,
      addLog_micActive, addLog_micError, addLog_micRecording, addLog_micStreamRef,
      addLog_micTrackRef, addLog_calls] at c1 c2 c3 c4 c5 c6 c7 c8 c9 c10 c11 c12 c13
    cases ht : s.micTrackRef with
    | none =>
      simp only [stopMicrophone, stopMicrophoneExc, stopMicrophoneTry, stopMicFinish,
        addLog_micStreamRef, addLog_micTrackRef, hs, hok, c12, ht]
      simp [c1, c2, c3, c4, c5, c6, c7, c13]
    | some t =>
      simp only [stopMicrophone, stopMicrophoneExc, stopMicrophoneTry, stopMicFinish,
        addLog_micStreamRef, addLog_micTrackRef, hs, hok, c12, ht, h t]
      simp [c1, c2, c3, c4, c5, c6, c7, c13]

theorem stopMicrophone_cases (s : St) (e : StopEvt) (st : Stream)
    (hs : s.micStreamRef = some st) (ht : s.micTrackRef = st.tracks.head?)
    (hne : st.tracks ≠ []) :
    EqCore (stopMicrophone s e) s ∨
    ((stopMicrophone s e).micActive = false ∧
     (stopMicrophone s e).micRecording = false ∧
     (stopMicrophone s e).micError = none ∧
     (stopMicrophone s e).micStreamRef = none ∧
     (stopMicrophone s e).micTrackRef = none ∧
     (stopMicrophone s e).cameraActive = s.cameraActive ∧
     (stopMicrophone s e).cameraError = s.cameraError ∧
     (stopMicrophone s e).torchEnabled = s.torchEnabled ∧
     (stopMicrophone s e).torchSupported = s.torchSupported ∧
     (stopMicrophone s e).videoSrc = s.videoSrc ∧
     (stopMicrophone s e).streamRef = s.streamRef ∧
     (stopMicrophone s e).trackRef = s.trackRef ∧
     (stopMicrophone s e).calls = s.calls) := by
  cases hres : stopTrackList micTrackMsg e.stopThrows
      (addLog s "Microphone: Stopping recording..." Sev.info) st.tracks with
  | error em =>
    left
    obtain ⟨sp, m⟩ := em
    have herase : erase sp = erase s :=
      (stopTrackList_err_erase micTrackMsg e.stopThrows st.tracks _ _ _ hres).trans
        (erase_addLog s "Microphone: Stopping recording..." Sev.info)
    have hstep : stopMicrophone s e
        = addLog sp ("Microphone: Error stopping - " ++ m) Sev.error := by
      simp only [stopMicrophone, stopMicrophoneExc, stopMicrophoneTry,
        addLog_micStreamRef, hs, hres]
    rw [hstep]
    exact eqCore_of_erase ((erase_addLog sp _ _).trans herase)
  | ok s2 =>
    right
    have hnone := stopTrackList_ok_none micTrackMsg e.stopThrows st.tracks _ _ hres
    obtain ⟨c1, c2, c3, c4, c5, c6, c7, c8, c9, c10, c11, c12, c13⟩ :=
      eqCore_of_erase (stopTrackList_ok_erase micTrackMsg e.stopThrows st.tracks _ _ hres)
    simp only [addLog_cameraActive, addLog_cameraError, addLog_torchEnabled,
      addLog_torchSupported, addLog_videoSrc, addLog_streamRef, addLog_trackRef,
      addLog_micActive, addLog_micError, addLog_micRecording, addLog_micStreamRef,
      addLog_micTrackRef, addLog_calls] at c1 c2 c3 c4 c5 c6 c7 c8 c9 c10 c11 c12 c13
    cases htr : st.tracks with
    | nil => exact absurd htr hne
    | cons t0 rest =>
      have hthr0 : e.stopThrows t0 = none := hnone t0 (htr ▸ List.mem_cons_self t0 rest)
      have ht0 : s.micTrackRef = some t0 := by rw [ht, htr]; rfl
      simp only [stopMicrophone, stopMicrophoneExc, stopMicrophoneTry, stopMicFinish,
        addLog_micStreamRef, addLog_micTrackRef, hs, hres, c12, ht0, hthr0]
      simp [c1, c2, c3, c4, c5, c6, c7, c13]

theorem stopCameraExc_ok (s : St) (e : StopEvt) :
    ∃ s2, stopCameraExc s e = Except.ok s2 := by
  cases h : stopCameraTry s e with
  | ok s2 => exact ⟨s2, by simp [stopCameraExc, h]⟩
  | error em =>
    obtain ⟨sp, m⟩ := em
    exact ⟨addLog sp ("Camera: Error stopping - " ++ m) Sev.error, by simp [stopCameraExc, h]⟩

theorem stopMicrophoneExc_ok (s : St) (e : StopEvt) :
    ∃ s2, stopMicrophoneExc s e = Except.ok s2 := by
  cases h : stopMicrophoneTry s e with
  | ok s2 => exact ⟨s2, by simp [stopMicrophoneExc, h]⟩
  | error em =>
    obtain ⟨sp, m⟩ := em
    exact ⟨addLog sp ("Microphone: Error stopping - " ++ m) Sev.error,
      by simp [stopMicrophoneExc, h]⟩

/-- The inductive invariant of the reachable states: an active session
holds the stream it was started with and the first track of that stream;
an inactive camera session holds no stale references and has both torch
flags down; the mic active and recording flags always agree; an inactive
mic session holds no stale references. -/
def Inv (s : St) : Prop :=
  (s.cameraActive = true →
    ∃ st, s.streamRef = some st ∧ st.tracks ≠ [] ∧ s.trackRef = st.tracks.head?) ∧
  (s.cameraActive = false →
    s.streamRef = none ∧ s.trackRef = none ∧
    s.torchSupported = false ∧ s.torchEnabled = false) ∧
  (s.torchEnabled = true → s.torchSupported = true) ∧
  (s.micActive = s.micRecording) ∧
  (s.micActive = true →
    ∃ st, s.micStreamRef = some st ∧ st.tracks ≠ [] ∧ s.micTrackRef = st.tracks.head?) ∧
  (s.micActive = false → s.micStreamRef = none ∧ s.micTrackRef = none)

theorem inv_init : Inv initSt := by
  refine ⟨?_, ?_, ?_, ?_, ?_, ?_⟩ <;> simp [initSt]

theorem inv_of_eqCore {a b : St} (hc : EqCore a b) (hb : Inv b) : Inv a := by
  obtain ⟨c1, c2, c3, c4, c5, c6, c7, c8, c9, c10, c11, c12, c13⟩ := hc
  obtain ⟨i1, i2, i3, i4, i5, i6⟩ := hb
  refine ⟨?_, ?_, ?_, ?_, ?_, ?_⟩
  · intro h; rw [c1] at h; rw [c6, c7]; exact i1 h
  · intro h; rw [c1] at h; rw [c6, c7, c4, c3]; exact i2 h
  · intro h; rw [c3] at h; rw [c4]; exact i3 h
  · rw [c8, c10]; exact i4
  · intro h; rw [c8] at h; rw [c11, c12]; exact i5 h
  · intro h; rw [c8] at h; rw [c11, c12]; exact i6 h

theorem inv_step (s : St) (e : Evt) (hI : Inv s) (hg : enabledFor s e = true) :
    Inv (stepEvt s e) := by
  obtain ⟨i1, i2, i3, i4, i5, i6⟩ := hI
  cases e with
  | startCam e0 =>
    have hca : s.cameraActive = false := by simpa [enabledFor] using hg
    obtain ⟨hsr, htr, hts, hte⟩ := i2 hca
    simp only [stepEvt]
    cases e0 with
    | success t rest =>
      obtain ⟨p1, p2, p3, p4, p5, p6, p7, p8, p9, p10, p11, p12, p13⟩ :=
        startCamera_success_spec s t rest
      refine ⟨?_, ?_, ?_, ?_, ?_, ?_⟩
      · intro _; exact ⟨⟨t :: rest⟩, p3, by simp, by rw [p4]; rfl⟩
      · intro h; rw [p1] at h; simp at h
      · intro h; rw [p6, hte] at h; simp at h
      · rw [p8, p10]; exact i4
      · intro h; rw [p8] at h; rw [p11, p12]; exact i5 h
      · intro h; rw [p8] at h; rw [p11, p12]; exact i6 h
    | failure m =>
      rw [startCamera_fail_eq s m]
      refine ⟨?_, ?_, ?_, ?_, ?_, ?_⟩
      · intro h; simp at h
      · intro _; exact ⟨hsr, htr, hts, hte⟩
      · intro h; exact i3 h
      · exact i4
      · intro h; exact i5 h
      · intro h; exact i6 h
  | stopCam e0 =>
    have hca : s.cameraActive = true := by simpa [enabledFor] using hg
    obtain ⟨st, hsr, hne, htr⟩ := i1 hca
    simp only [stepEvt]
    rcases stopCamera_cases s e0 st hsr htr hne with hcore | hreset
    · exact inv_of_eqCore hcore ⟨i1, i2, i3, i4, i5, i6⟩
    · obtain ⟨r1, r2, r3, r4, r5, r6, r7, r8, r9, r10, r11, r12⟩ := hreset
      refine ⟨?_, ?_, ?_, ?_, ?_, ?_⟩
      · intro h; rw [r1] at h; simp at h
      · intro _; exact ⟨r3, r4, r6, r5⟩
      · intro h; rw [r5] at h; simp at h
      · rw [r7, r9]; exact i4
      · intro h; rw [r7] at h; rw [r10, r11]; exact i5 h
      · intro h; rw [r7] at h; rw [r10, r11]; exact i6 h
  | toggle e0 =>
    have hg2 : s.cameraActive = true ∧ s.torchSupported = true := by
      simpa [enabledFor, Bool.and_eq_true] using hg
    obtain ⟨st, hsr, hne, htr⟩ := i1 hg2.1
    obtain ⟨t0, ht0⟩ : ∃ t0, s.trackRef = some t0 := by
      cases htracks : st.tracks with
      | nil => exact absurd htracks hne
      | cons a l => exact ⟨a, by rw [htr, htracks]; rfl⟩
    simp only [stepEvt]
    cases e0 with
    | success =>
      rw [toggleTorch_success_eq s t0 ht0 hg2.2]
      refine ⟨?_, ?_, ?_, ?_, ?_, ?_⟩
      · intro _; exact ⟨st, hsr, hne, htr⟩
      · intro h
        have h2 : s.cameraActive = false := h
        rw [hg2.1] at h2; simp at h2
      · intro _; exact hg2.2
      · exact i4
      · intro h; exact i5 h
      · intro h; exact i6 h
    | failure m =>
      rw [toggleTorch_failure_eq s t0 m ht0 hg2.2]
      refine ⟨?_, ?_, ?_, ?_, ?_, ?_⟩
      · intro _; exact ⟨st, hsr, hne, htr⟩
      · intro h
        have h2 : s.cameraActive = false := h
        rw [hg2.1] at h2; simp at h2
      · intro h; exact i3 h
      · exact i4
      · intro h; exact i5 h
      · intro h; exact i6 h
  | startMic e0 =>
    have hg2 : s.micRecording = false ∧ s.cameraActive = false := by
      have h2 := hg
      simp only [enabledFor, Bool.not_eq_true', Bool.or_eq_false_iff] at h2
      exact h2
    have hma : s.micActive = false := by rw [i4]; exact hg2.1
    obtain ⟨hsr2, htr2, hts2, hte2⟩ := i2 hg2.2
    obtain ⟨hmsr, hmtr⟩ := i6 hma
    simp only [stepEvt]
    cases e0 with
    | success t rest =>
      obtain ⟨q1, q2, q3, q4, q5, q6, q7, q8, q9, q10, q11, q12, q13⟩ :=
        startMicrophone_success_spec s t rest hg2.2 hsr2
      refine ⟨?_, ?_, ?_, ?_, ?_, ?_⟩
      · intro h; rw [q6, hg2.2] at h; simp at h
      · intro _; rw [q11, q12, q9, q8]; exact ⟨hsr2, htr2, hts2, hte2⟩
      · intro h; rw [q8] at h; rw [q9]; exact i3 h
      · rw [q1, q2]
      · intro _; exact ⟨⟨t :: rest⟩, q4, by simp, by rw [q5]; rfl⟩
      · intro h; rw [q1] at h; simp at h
    | failure m =>
      obtain ⟨q1, q2, q3, q4, q5, q6, q7, q8, q9, q10, q11, q12, q13⟩ :=
        startMicrophone_fail_spec s m hg2.2 hsr2
      refine ⟨?_, ?_, ?_, ?_, ?_, ?_⟩
      · intro h; rw [q6, hg2.2] at h; simp at h
      · intro _; rw [q11, q12, q9, q8]; exact ⟨hsr2, htr2, hts2, hte2⟩
      · intro h; rw [q8] at h; rw [q9]; exact i3 h
      · rw [q1, q2]
      · intro h; rw [q1] at h; simp at h
      · intro _; rw [q4, q5]; exact ⟨hmsr, hmtr⟩
  | stopMic e0 =>
    have hmr : s.micRecording = true := by simpa [enabledFor] using hg
    have hma : s.micActive = true := by rw [i4]; exact hmr
    obtain ⟨st, hsr2, hne2, htr2⟩ := i5 hma
    simp only [stepEvt]
    rcases stopMicrophone_cases s e0 st hsr2 htr2 hne2 with hcore | hreset
    · exact inv_of_eqCore hcore ⟨i1, i2, i3, i4, i5, i6⟩
    · obtain ⟨r1, r2, r3, r4, r5, r6, r7, r8, r9, r10, r11, r12, r13⟩ := hreset
      refine ⟨?_, ?_, ?_, ?_, ?_, ?_⟩
      · intro h; rw [r6] at h; rw [r11, r12]; exact i1 h
      · intro h; rw [r6] at h; rw [r11, r12, r9, r8]; exact i2 h
      · intro h; rw [r8] at h; rw [r9]; exact i3 h
      · rw [r1, r2]
      · intro h; rw [r1] at h; simp at h
      · intro _; exact ⟨r4, r5⟩
  | clear =>
    simp only [stepEvt]
    exact inv_of_eqCore (eqCore_of_erase rfl) ⟨i1, i2, i3, i4, i5, i6⟩

theorem reach_inv {s : St} (h : Reach s) : Inv s := by
  induction h with
  | base => exact inv_init
  | next _ hg ih => exact inv_step _ _ ih hg

theorem camRun_active (ops : List CamOp) :
    ∀ s : St, (∀ e, CamOp.stop e ∈ ops → ∀ t, e.stopThrows t = none) →
    (camRun s ops).cameraActive =
      (match ops.reverse with
       | [] => s.cameraActive
       | op :: _ => camOpActive op) := by
  induction ops with
  | nil => intro s _; rfl
  | cons op rest ih =>
    intro s h
    have hstep : (camOpApply s op).cameraActive = camOpActive op := by
      cases op with
      | start e0 =>
        cases e0 with
        | success t r2 => exact (startCamera_success_spec s t r2).1
        | failure m => rw [camOpApply, startCamera_fail_eq]; rfl
      | stop e0 =>
        have hth : ∀ t, e0.stopThrows t = none := h e0 (List.mem_cons_self _ _)
        exact (stopCamera_noThrow_spec s e0 hth).1
    have hrest := ih (camOpApply s op) (fun e he t => h e (List.mem_cons_of_mem _ he) t)
    simp only [camRun]
    rw [hrest]
    cases hrev : rest.reverse with
    | nil =>
      rw [List.reverse_eq_nil_iff] at hrev
      subst hrev
      simpa using hstep
    | cons o l => simp [List.reverse_cons, hrev]

/-- C1: in any state in which the video session is active or the video
stream handle is still held, startMicrophone sets the mic error to
"Camera must be stopped first", appends a log entry of error severity
(after the initial info entry), and issues no host media request. -/
theorem c1_startMicrophone_refuses_while_camera_held (s : St) (e : StartEvt)
    (h : s.cameraActive = true ∨ s.streamRef ≠ none) :
    (startMicrophone s e).micError = some "Camera must be stopped first" ∧
    (startMicrophone s e).logs = s.logs ++
      [⟨tsFmt s.clock "Microphone: Requesting permission...", Sev.info⟩,
       ⟨tsFmt (s.clock + 1)
          "Microphone: WARNING - Camera is still active. Ensure camera is fully stopped before requesting microphone.",
        Sev.error⟩] ∧
    (startMicrophone s e).calls = s.calls := by
  have h2 : s.cameraActive = true ∨ s.streamRef.isSome = true := by
    rcases h with h | h
    · exact Or.inl h
    · exact Or.inr (Option.isSome_iff_ne_none.mpr h)
  rw [startMicrophone_refuse_eq s e h2]
  exact ⟨rfl, rfl, rfl⟩

theorem c1_witness :
    (({ initSt with cameraActive := true } : St).cameraActive = true ∨
      ({ initSt with cameraActive := true } : St).streamRef ≠ none) ∧
    (startMicrophone { initSt with cameraActive := true } (StartEvt.failure "denied")).micError
      = some "Camera must be stopped first" ∧
    (startMicrophone { initSt with cameraActive := true } (StartEvt.failure "denied")).logs
      = ({ initSt with cameraActive := true } : St).logs ++
        [⟨tsFmt ({ initSt with cameraActive := true } : St).clock
            "Microphone: Requesting permission...", Sev.info⟩,
         ⟨tsFmt (({ initSt with cameraActive := true } : St).clock + 1)
            "Microphone: WARNING - Camera is still active. Ensure camera is fully stopped before requesting microphone.",
          Sev.error⟩] ∧
    (startMicrophone { initSt with cameraActive := true } (StartEvt.failure "denied")).calls
      = ({ initSt with cameraActive := true } : St).calls :=
  ⟨Or.inl rfl,
   c1_startMicrophone_refuses_while_camera_held
     { initSt with cameraActive := true } (StartEvt.failure "denied") (Or.inl rfl)⟩

/-- C10: on the refusal path of startMicrophone (video active or stream
handle held), the mic active and recording flags, the mic stream/track
references, the whole camera-session state and the host-call trace are
all left unchanged; only the mic error string and the log change. -/
theorem c10_startMicrophone_refusal_frame (s : St) (e : StartEvt)
    (h : s.cameraActive = true ∨ s.streamRef ≠ none) :
    (startMicrophone s e).micActive = s.micActive ∧
    (startMicrophone s e).micRecording = s.micRecording ∧
    (startMicrophone s e).micStreamRef = s.micStreamRef ∧
    (startMicrophone s e).micTrackRef = s.micTrackRef ∧
    (startMicrophone s e).cameraActive = s.cameraActive ∧
    (startMicrophone s e).cameraError = s.cameraError ∧
    (startMicrophone s e).torchEnabled = s.torchEnabled ∧
    (startMicrophone s e).torchSupported = s.torchSupported ∧
    (startMicrophone s e).videoSrc = s.videoSrc ∧
    (startMicrophone s e).streamRef = s.streamRef ∧
    (startMicrophone s e).trackRef = s.trackRef ∧
    (startMicrophone s e).calls = s.calls := by
  have h2 : s.cameraActive = true ∨ s.streamRef.isSome = true := by
    rcases h with h | h
    · exact Or.inl h
    · exact Or.inr (Option.isSome_iff_ne_none.mpr h)
  rw [startMicrophone_refuse_eq s e h2]
  exact ⟨rfl, rfl, rfl, rfl, rfl, rfl, rfl, rfl, rfl, rfl, rfl, rfl⟩

theorem c10_witness :
    (({ initSt with streamRef := some ⟨[plainTrack]⟩ } : St).cameraActive = true ∨
      ({ initSt with streamRef := some ⟨[plainTrack]⟩ } : St).streamRef ≠ none) ∧
    (startMicrophone { initSt with streamRef := some ⟨[plainTrack]⟩ }
        (StartEvt.success plainTrack [])).micActive
      = ({ initSt with streamRef := some ⟨[plainTrack]⟩ } : St).micActive ∧
    (startMicrophone { initSt with streamRef := some ⟨[plainTrack]⟩ }
        (StartEvt.success plainTrack [])).micRecording
      = ({ initSt with streamRef := some ⟨[plainTrack]⟩ } : St).micRecording ∧
    (startMicrophone { initSt with streamRef := some ⟨[plainTrack]⟩ }
        (StartEvt.success plainTrack [])).micStreamRef
      = ({ initSt with streamRef := some ⟨[plainTrack]⟩ } : St).micStreamRef ∧
    (startMicrophone { initSt with streamRef := some ⟨[plainTrack]⟩ }
        (StartEvt.success plainTrack [])).micTrackRef
      = ({ initSt with streamRef := some ⟨[plainTrack]⟩ } : St).micTrackRef :=
  ⟨Or.inr (Option.some_ne_none _),
   (fun q =>
     ⟨q.1, q.2.1, q.2.2.1, q.2.2.2.1⟩)
   (c10_startMicrophone_refusal_frame { initSt with streamRef := some ⟨[plainTrack]⟩ }
     (StartEvt.success plainTrack []) (Or.inr (Option.some_ne_none _)))⟩

/-- C9: immediately after clearLogs the log holds exactly one entry, the
freshly generated "Logs cleared" entry; all previous entries are gone. -/
theorem c9_clearLogs_single_entry (s : St) :
    (clearLogs s).logs = [⟨tsFmt s.clock "Logs cleared", Sev.info⟩] ∧
    (clearLogs s).logs.length = 1 := by
  rw [clearLogs_eq]
  exact ⟨rfl, rfl⟩

/-- C5: a failed video start leaves the session inactive, records the
host-reported reason in the session error, and the failure handler
appends exactly one error-severity log entry (the appended suffix is one
info entry from the attempt plus one error entry from the catch). -/
theorem c5_startCamera_failure_spec (s : St) (m : String) :
    (startCamera s (StartEvt.failure m)).cameraActive = false ∧
    (startCamera s (StartEvt.failure m)).cameraError =
      some ("Camera: Permission denied or error occurred - " ++ m) ∧
    (startCamera s (StartEvt.failure m)).logs = s.logs ++
      [⟨tsFmt s.clock "Camera: Requesting permission...", Sev.info⟩,
       ⟨tsFmt (s.clock + 1) ("Camera: Permission denied or error occurred - " ++ m),
        Sev.error⟩] ∧
    errCount ((startCamera s (StartEvt.failure m)).logs.drop s.logs.length) = 1 := by
  rw [startCamera_fail_eq]
  refine ⟨rfl, rfl, rfl, ?_⟩
  have hd : (s.logs ++
      [(⟨tsFmt s.clock "Camera: Requesting permission...", Sev.info⟩ : LogEntry),
       ⟨tsFmt (s.clock + 1) ("Camera: Permission denied or error occurred - " ++ m),
        Sev.error⟩]).drop s.logs.length =
      [(⟨tsFmt s.clock "Camera: Requesting permission...", Sev.info⟩ : LogEntry),
       ⟨tsFmt (s.clock + 1) ("Camera: Permission denied or error occurred - " ++ m),
        Sev.error⟩] := List.drop_left _ _
  rw [show ({ s with
      cameraError := some ("Camera: Permission denied or error occurred - " ++ m),
      cameraActive := false,
      calls := s.calls ++ [HostCall.getUserMediaVideo],
      logs := s.logs ++
        [⟨tsFmt s.clock "Camera: Requesting permission...", Sev.info⟩,
         ⟨tsFmt (s.clock + 1) ("Camera: Permission denied or error occurred - " ++ m),
          Sev.error⟩],
      clock := s.clock + 2 } : St).logs = s.logs ++
        [⟨tsFmt s.clock "Camera: Requesting permission...", Sev.info⟩,
         ⟨tsFmt (s.clock + 1) ("Camera: Permission denied or error occurred - " ++ m),
          Sev.error⟩] from rfl, hd]
  rfl

/-- C7: toggling the torch while torchSupported is false changes no
session state, issues no applyConstraints host call, and appends exactly
one rejection log entry; and after a successful video start whose
capability set lacks the torch key, torchSupported stays false and a
toggle attempt logs the "Camera: Torch not available" rejection while
torchEnabled remains false. -/
theorem c7_toggleTorch_unsupported :
    (∀ (s : St) (e : ToggleEvt), s.torchSupported = false →
      (toggleTorch s e).torchEnabled = s.torchEnabled ∧
      (toggleTorch s e).torchSupported = s.torchSupported ∧
      (toggleTorch s e).cameraActive = s.cameraActive ∧
      (toggleTorch s e).cameraError = s.cameraError ∧
      (toggleTorch s e).streamRef = s.streamRef ∧
      (toggleTorch s e).trackRef = s.trackRef ∧
      (toggleTorch s e).micActive = s.micActive ∧
      (toggleTorch s e).micRecording = s.micRecording ∧
      (toggleTorch s e).micError = s.micError ∧
      (toggleTorch s e).calls = s.calls ∧
      (toggleTorch s e).logs
        = s.logs ++ [⟨tsFmt s.clock "Camera: Torch not available", Sev.error⟩]) ∧
    (∀ (t : Track) (rest : List Track) (e : ToggleEvt), t.capTorch = none →
      (startCamera initSt (StartEvt.success t rest)).torchSupported = false ∧
      (toggleTorch (startCamera initSt (StartEvt.success t rest)) e).torchEnabled = false ∧
      (toggleTorch (startCamera initSt (StartEvt.success t rest)) e).logs =
        (startCamera initSt (StartEvt.success t rest)).logs ++
          [⟨tsFmt (startCamera initSt (StartEvt.success t rest)).clock
              "Camera: Torch not available", Sev.error⟩]) := by
  constructor
  · intro s e h
    rw [toggleTorch_unavailable_eq s e (Or.inr h)]
    exact ⟨rfl, rfl, rfl, rfl, rfl, rfl, rfl, rfl, rfl, rfl, rfl⟩
  · intro t rest e h
    obtain ⟨p1, p2, p3, p4, p5, p6, p7, p8, p9, p10, p11, p12, p13⟩ :=
      startCamera_success_spec initSt t rest
    have hsup : (startCamera initSt (StartEvt.success t rest)).torchSupported = false := by
      rw [p7, h]
      simp [initSt]
    refine ⟨hsup, ?_, ?_⟩
    · rw [toggleTorch_unavailable_eq _ e (Or.inr hsup)]
      rw [addLog_torchEnabled]
      exact p6
    · rw [toggleTorch_unavailable_eq _ e (Or.inr hsup)]
      rfl

theorem c7_witness :
    plainTrack.capTorch = none ∧
    ((startCamera initSt (StartEvt.success plainTrack [])).torchSupported = false ∧
     (toggleTorch (startCamera initSt (StartEvt.success plainTrack []))
        ToggleEvt.success).torchEnabled = false ∧
     (toggleTorch (startCamera initSt (StartEvt.success plainTrack []))
        ToggleEvt.success).logs =
       (startCamera initSt (StartEvt.success plainTrack [])).logs ++
         [⟨tsFmt (startCamera initSt (StartEvt.success plainTrack [])).clock
             "Camera: Torch not available", Sev.error⟩]) :=
  ⟨rfl, c7_toggleTorch_unsupported.2 plainTrack [] ToggleEvt.success rfl⟩

/-- C2 counterexample: from the reachable state after a successful camera
start, a stopCamera call during which track.stop() throws is caught by the
catch block before the reference-clearing lines run, so the stream
reference is NOT null afterwards, contradicting the claim that both
references are null after any stop regardless of whether releasing threw. -/
theorem c2_counterexample :
    (stopCamera (startCamera initSt (StartEvt.success plainTrack []))
        ⟨fun _ => some "InvalidStateError"⟩).streamRef ≠ none := by
  intro h
  exact Option.noConfusion (show some (⟨[plainTrack]⟩ : Stream) = none from h)

/-- C2 (amended): in every reachable state an active session (video or
audio) holds non-null stream and track references; and after any stop
call in which no track release throws, both references of that session
are null.  (When a release throws, the catch block leaves the not yet
cleared references set, as the counterexample shows.) -/
theorem c2_session_refs_amended :
    (∀ s : St, Reach s →
      (s.cameraActive = true →
        s.streamRef.isSome = true ∧ s.trackRef.isSome = true) ∧
      (s.micActive = true →
        s.micStreamRef.isSome = true ∧ s.micTrackRef.isSome = true)) ∧
    (∀ (s : St) (e : StopEvt), (∀ t, e.stopThrows t = none) →
      (stopCamera s e).streamRef = none ∧ (stopCamera s e).trackRef = none ∧
      (stopMicrophone s e).micStreamRef = none ∧
      (stopMicrophone s e).micTrackRef = none) := by
  constructor
  · intro s hR
    obtain ⟨i1, _, _, _, i5, _⟩ := reach_inv hR
    constructor
    · intro h
      obtain ⟨st, h1, hne, h3⟩ := i1 h
      refine ⟨by rw [h1]; rfl, ?_⟩
      cases htr : st.tracks with
      | nil => exact absurd htr hne
      | cons a l => rw [h3, htr]; rfl
    · intro h
      obtain ⟨st, h1, hne, h3⟩ := i5 h
      refine ⟨by rw [h1]; rfl, ?_⟩
      cases htr : st.tracks with
      | nil => exact absurd htr hne
      | cons a l => rw [h3, htr]; rfl
  · intro s e h
    obtain ⟨_, _, hc3, hc4, _⟩ := stopCamera_noThrow_spec s e h
    obtain ⟨_, _, _, hm4, hm5, _⟩ := stopMicrophone_noThrow_spec s e h
    exact ⟨hc3, hc4, hm4, hm5⟩

theorem c2_witness :
    ((stepEvt initSt (Evt.startCam (StartEvt.success plainTrack []))).streamRef.isSome = true ∧
     (stepEvt initSt (Evt.startCam (StartEvt.success plainTrack []))).trackRef.isSome = true) ∧
    (stopCamera initSt noThrowEvt).streamRef = none ∧
    (stopCamera initSt noThrowEvt).trackRef = none ∧
    (stopMicrophone initSt noThrowEvt).micStreamRef = none ∧
    (stopMicrophone initSt noThrowEvt).micTrackRef = none :=
  ⟨(c2_session_refs_amended.1 (stepEvt initSt (Evt.startCam (StartEvt.success plainTrack [])))
      (Reach.next Reach.base rfl :
        Reach (stepEvt initSt (Evt.startCam (StartEvt.success plainTrack []))))).1 rfl,
   c2_session_refs_amended.2 initSt noThrowEvt (fun _ => rfl)⟩

/-- C3 counterexample: the state after a failed camera start is inactive
and carries a non-null error string; calling stopCamera there clears the
error string, so stopping an inactive session is not a no-op on the
session state (the claim asserts the error string is left unchanged). -/
theorem c3_counterexample :
    (startCamera initSt (StartEvt.failure "NotAllowedError")).cameraActive = false ∧
    (stopCamera (startCamera initSt (StartEvt.failure "NotAllowedError"))
        noThrowEvt).cameraError ≠
      (startCamera initSt (StartEvt.failure "NotAllowedError")).cameraError := by
  refine ⟨rfl, ?_⟩
  intro h
  exact Option.noConfusion
    (show (none : Option String)
        = some ("Camera: Permission denied or error occurred - " ++ "NotAllowedError") from h)

/-- C3 (amended): calling stop on an inactive session in any reachable
state leaves the active flag, the handles and (for video) the torch state
unchanged and never throws to its caller; but instead of leaving the
error string unchanged it resets it to null, so the call is a state
no-op exactly when the stored error was already null. -/
theorem c3_stop_inactive_amended :
    (∀ (s : St) (e : StopEvt), Reach s → s.cameraActive = false →
      (stopCamera s e).cameraActive = s.cameraActive ∧
      (stopCamera s e).streamRef = s.streamRef ∧
      (stopCamera s e).trackRef = s.trackRef ∧
      (stopCamera s e).torchEnabled = s.torchEnabled ∧
      (stopCamera s e).torchSupported = s.torchSupported ∧
      (stopCamera s e).cameraError = none ∧
      (stopCamera s e).calls = s.calls ∧
      (s.cameraError = none → (stopCamera s e).cameraError = s.cameraError)) ∧
    (∀ (s : St) (e : StopEvt), Reach s → s.micActive = false →
      (stopMicrophone s e).micActive = s.micActive ∧
      (stopMicrophone s e).micRecording = s.micRecording ∧
      (stopMicrophone s e).micStreamRef = s.micStreamRef ∧
      (stopMicrophone s e).micTrackRef = s.micTrackRef ∧
      (stopMicrophone s e).micError = none ∧
      (stopMicrophone s e).calls = s.calls ∧
      (s.micError = none → (stopMicrophone s e).micError = s.micError)) ∧
    (∀ (s : St) (e : StopEvt), ∃ s2, stopCameraExc s e = Except.ok s2) ∧
    (∀ (s : St) (e : StopEvt), ∃ s2, stopMicrophoneExc s e = Except.ok s2) := by
  refine ⟨?_, ?_, stopCameraExc_ok, stopMicrophoneExc_ok⟩
  · intro s e hR hin
    obtain ⟨_, i2, _, _, _, _⟩ := reach_inv hR
    obtain ⟨hsr, htr, hts, hte⟩ := i2 hin
    rw [stopCamera_refsNone s e hsr htr]
    exact ⟨hin.symm, rfl, rfl, hte.symm, hts.symm, rfl, rfl, fun he => he.symm⟩
  · intro s e hR hin
    obtain ⟨_, _, _, i4, _, i6⟩ := reach_inv hR
    obtain ⟨hmsr, hmtr⟩ := i6 hin
    have hmr : s.micRecording = false := i4.symm.trans hin
    rw [stopMicrophone_refsNone s e hmsr hmtr]
    exact ⟨hin.symm, hmr.symm, rfl, rfl, rfl, rfl, fun he => he.symm⟩

theorem c3_witness :
    (stopCamera initSt noThrowEvt).cameraActive = initSt.cameraActive ∧
    (stopCamera initSt noThrowEvt).streamRef = initSt.streamRef ∧
    (stopCamera initSt noThrowEvt).torchEnabled = initSt.torchEnabled ∧
    (stopCamera initSt noThrowEvt).cameraError = initSt.cameraError ∧
    (stopMicrophone initSt noThrowEvt).micActive = initSt.micActive ∧
    (stopMicrophone initSt noThrowEvt).micError = initSt.micError :=
  ⟨(c3_stop_inactive_amended.1 initSt noThrowEvt Reach.base rfl).1,
   (c3_stop_inactive_amended.1 initSt noThrowEvt Reach.base rfl).2.1,
   (c3_stop_inactive_amended.1 initSt noThrowEvt Reach.base rfl).2.2.2.1,
   (c3_stop_inactive_amended.1 initSt noThrowEvt Reach.base rfl).2.2.2.2.2.2.2 rfl,
   (c3_stop_inactive_amended.2.1 initSt noThrowEvt Reach.base rfl).1,
   (c3_stop_inactive_amended.2.1 initSt noThrowEvt Reach.base rfl).2.2.2.2.2.2 rfl⟩

/-- C4: over every finite sequence of start/stop calls on the video
session (each start succeeding or failing at the host; releases during
stop return normally, as the host stop surface has no failure mode), the
active flag afterwards is true exactly when the most recent start
succeeded and no stop call occurred after it. -/
theorem c4_active_iff_last_start (ops : List CamOp)
    (h : ∀ e, CamOp.stop e ∈ ops → ∀ t, e.stopThrows t = none) :
    (camRun initSt ops).cameraActive = true ↔ lastStartOkNoStop ops = true := by
  rw [camRun_active ops initSt h, lastStartOkNoStop]
  cases hrev : ops.reverse with
  | nil => simp [initSt]
  | cons op l => simp

theorem c4_witness :
    ((camRun initSt [CamOp.start (StartEvt.success plainTrack []),
        CamOp.stop noThrowEvt, CamOp.start (StartEvt.success torchTrack [])]).cameraActive
      = true ↔
     lastStartOkNoStop [CamOp.start (StartEvt.success plainTrack []),
        CamOp.stop noThrowEvt, CamOp.start (StartEvt.success torchTrack [])] = true) :=
  c4_active_iff_last_start _ (by
    intro e he t
    simp at he
    subst he
    rfl)

/-- C6: in every reachable state, the torch-enabled flag is true only if
the torch is supported and the video session is active; the guarded
operations of the controller preserve this invariant. -/
theorem c6_torch_invariant (s : St) (hR : Reach s) (h : s.torchEnabled = true) :
    s.torchSupported = true ∧ s.cameraActive = true := by
  obtain ⟨_, i2, i3, _, _, _⟩ := reach_inv hR
  refine ⟨i3 h, ?_⟩
  cases hca : s.cameraActive with
  | true => rfl
  | false =>
    obtain ⟨_, _, _, hte⟩ := i2 hca
    rw [hte] at h
    simp at h

theorem c6_witness :
    Reach sCamTorchOn ∧ sCamTorchOn.torchEnabled = true ∧
    (sCamTorchOn.torchSupported = true ∧ sCamTorchOn.cameraActive = true) :=
  ⟨Reach.next (Reach.next Reach.base rfl) rfl, rfl,
   c6_torch_invariant sCamTorchOn (Reach.next (Reach.next Reach.base rfl) rfl) rfl⟩

/-- C8: from a reachable state with the video session active and torch
supported, toggleTorch requests the opposite of the current setting from
the host (recorded in the host-call trace); on success the local flag
flips to that opposite value, and on rejection the local torch state and
references are unchanged and a failure entry is logged. -/
theorem c8_toggleTorch_active_supported (s : St) (hR : Reach s)
    (ha : s.cameraActive = true) (hsup : s.torchSupported = true) :
    ((toggleTorch s ToggleEvt.success).torchEnabled = !s.torchEnabled ∧
     (toggleTorch s ToggleEvt.success).calls
       = s.calls ++ [HostCall.applyConstraintsTorch (!s.torchEnabled)]) ∧
    (∀ m : String,
      (toggleTorch s (ToggleEvt.failure m)).torchEnabled = s.torchEnabled ∧
      (toggleTorch s (ToggleEvt.failure m)).torchSupported = s.torchSupported ∧
      (toggleTorch s (ToggleEvt.failure m)).streamRef = s.streamRef ∧
      (toggleTorch s (ToggleEvt.failure m)).trackRef = s.trackRef ∧
      (toggleTorch s (ToggleEvt.failure m)).cameraActive = s.cameraActive ∧
      (toggleTorch s (ToggleEvt.failure m)).calls
        = s.calls ++ [HostCall.applyConstraintsTorch (!s.torchEnabled)] ∧
      (toggleTorch s (ToggleEvt.failure m)).logs
        = s.logs ++ [⟨tsFmt s.clock ("Camera: Torch toggle error - " ++ m), Sev.error⟩]) := by
  obtain ⟨i1, _, _, _, _, _⟩ := reach_inv hR
  obtain ⟨st, hsr, hne, htr⟩ := i1 ha
  obtain ⟨t0, ht0⟩ : ∃ t0, s.trackRef = some t0 := by
    cases htracks : st.tracks with
    | nil => exact absurd htracks hne
    | cons a l => exact ⟨a, by rw [htr, htracks]; rfl⟩
  constructor
  · rw [toggleTorch_success_eq s t0 ht0 hsup]
    exact ⟨rfl, rfl⟩
  · intro m
    rw [toggleTorch_failure_eq s t0 m ht0 hsup]
    exact ⟨rfl, rfl, rfl, rfl, rfl, rfl, rfl⟩

theorem c8_witness :
    Reach sCamTorch ∧ sCamTorch.cameraActive = true ∧ sCamTorch.torchSupported = true ∧
    ((toggleTorch sCamTorch ToggleEvt.success).torchEnabled = !sCamTorch.torchEnabled ∧
     (toggleTorch sCamTorch ToggleEvt.success).calls
       = sCamTorch.calls ++ [HostCall.applyConstraintsTorch (!sCamTorch.torchEnabled)]) ∧
    (toggleTorch sCamTorch (ToggleEvt.failure "NotSupportedError")).torchEnabled
      = sCamTorch.torchEnabled :=
  ⟨Reach.next Reach.base rfl, rfl, rfl,
   (c8_toggleTorch_active_supported sCamTorch (Reach.next Reach.base rfl) rfl rfl).1,
   ((c8_toggleTorch_active_supported sCamTorch (Reach.next Reach.base rfl) rfl rfl).2
     "NotSupportedError").1⟩

end MediaTester
